import Mathlib

/-!
Shallow embedding of the LightAirQ client library (`src/LightAirQ/LightAirQ.py`
together with the exception classes of `src/LightAirQ/exceptions.py`).

Modelling conventions: Python floats are modelled as exact real numbers (`ℝ`)
where trigonometry is involved (the haversine distance and the proximity
ranker), and as exact rationals (`ℚ`) in the JSON payloads of the transport and
measurement layers, where numbers are only carried around and never computed
with.  Python dicts are modelled as association lists with Python's update
semantics (updating an existing key keeps its position, a new key is appended
at the end).  Raised exceptions are modelled with `Except`; the ordered
`except` clauses of the source are reproduced as ordered dispatch, together
with the relevant part of the exception class hierarchy of the `requests`
library (version ≥ 2.27, the first that has the `requests.JSONDecodeError`
name referenced by the source).
-/

namespace LightAirQ

/-- JSON values as produced by `response.json()`; numbers are carried as exact
rationals. -/
inductive Json : Type
  | null : Json
  | bool (b : Bool) : Json
  | num (q : ℚ) : Json
  | str (s : String) : Json
  | arr (elems : List Json) : Json
  | obj (fields : List (String × Json)) : Json

/-- Python `d[k]` on a dict modelled as an association list: the first binding
of the key (dict keys are unique in maps produced by JSON parsing). -/
def dlookup {v : Type} : List (String × v) → String → Option v
  | [], _ => none
  | (k', x) :: d, k => if k' = k then some x else dlookup d k

/-- Python `d[k] = x`: replace the value at an existing key in place,
otherwise append the new binding at the end. -/
def dset {v : Type} : List (String × v) → String → v → List (String × v)
  | [], k, x => [(k, x)]
  | (k', y) :: d, k, x => if k' = k then (k, x) :: d else (k', y) :: dset d k x

/-- Python `d.pop(k)`: the value at `k` together with the dict with that
binding removed, or `none` (a `KeyError`) when the key is absent. -/
def dpop {v : Type} : List (String × v) → String → Option (v × List (String × v))
  | [], _ => none
  | (k', y) :: d, k =>
    if k' = k then some (y, d)
    else (dpop d k).map fun p => (p.1, (k', y) :: p.2)

/-- Python truthiness of a parsed JSON value (`if not response_json`). -/
def falsy : Json → Bool
  | .null => true
  | .bool b => !b
  | .num q => q == 0
  | .str s => s == ""
  | .arr es => es.isEmpty
  | .obj fs => fs.isEmpty

/-- An HTTP response as seen by the client: status code, raw body text, and
the result of parsing the body as JSON (`none` when the body is not valid
JSON, in which case `response.json()` raises `requests.JSONDecodeError`). -/
structure HttpResponse : Type where
  status : ℕ
  text : String
  body : Option Json

/-- Outcome of `session.get`: either a network-level failure
(`requests.ConnectionError`, timeout, …) or a response from the server. -/
inductive NetOutcome : Type
  | netFail : NetOutcome
  | response (r : HttpResponse) : NetOutcome

/-- Query parameters of a request (`params = {**kwargs}`). -/
abbrev Params := List (String × String)

/-- The Python exceptions the source's `try` blocks raise and dispatch on. -/
inductive PyExc : Type
  | httpError
  | jsonDecodeError
  | otherReqExc
  | keyError
  | indexError
  | typeError
  | attributeError
deriving DecidableEq

/-- Matching against the class `requests.HTTPError`. -/
def isHTTPError : PyExc → Bool
  | .httpError => true
  | _ => false

/-- Matching against the class `requests.RequestException`.  In `requests`
≥ 2.27, `JSONDecodeError` derives from `InvalidJSONError`, which derives from
`RequestException`, so it is matched by this class as well. -/
def isRequestsException : PyExc → Bool
  | .httpError => true
  | .jsonDecodeError => true
  | .otherReqExc => true
  | _ => false

/-- Matching against the class `requests.JSONDecodeError`. -/
def isJSONDecodeError : PyExc → Bool
  | .jsonDecodeError => true
  | _ => false

/-- Values stored in a post record for the proximity ranker; numbers are
modelled as exact reals so that the haversine computation can be stated
exactly. -/
inductive RVal : Type
  | null : RVal
  | bool (b : Bool) : RVal
  | num (x : ℝ) : RVal
  | str (s : String) : RVal

/-- A post record: a Python dict with real-valued numeric fields. -/
abbrev PostD := List (String × RVal)

/-- Python truthiness of a post-record value, as used by
`if distance and posts[index]["isOnline"]`. -/
def truthy : RVal → Prop
  | .null => False
  | .bool b => b = true
  | .num x => x ≠ 0
  | .str s => s ≠ ""

/-- Exceptions that escape the library's public operations: the exception
classes of `exceptions.py`, each carrying the data the source passes to its
constructor, together with re-raised Python exceptions
(`except Exception: raise`).  Error payloads reflecting mutable state
(`GetPostsError`, `GetMeasurementError`) carry the decoded response. -/
inductive LibError : Type
  | haversineFormulaError (point1 : ℝ × ℝ) (point2 : RVal × RVal)
  | sendRequestError (params : Params) (url : String)
  | statusCodeError (params : Params) (url : String) (code : ℕ) (text : String)
  | decodingError (params : Params) (url : String) (code : ℕ) (text : String)
  | getPostsError (data : Json)
  | sortPostsError (data : List PostD)
  | getMeasurementError (data : Json)
  | pyError (e : PyExc)

/-- The errors belonging to the source's `RequestException` hierarchy
(`SendRequestError`, `StatusCodeError`, `DecodingError`). -/
def isRequestError : LibError → Bool
  | .sendRequestError _ _ => true
  | .statusCodeError _ _ _ _ => true
  | .decodingError _ _ _ _ => true
  | _ => false

/-- The errors belonging to the source's `DistanceException` hierarchy. -/
def isDistanceError : LibError → Bool
  | .haversineFormulaError _ _ => true
  | _ => false

/-- Body of the `try` block of `__make_request`, given a received response:
`response.raise_for_status()` raises `requests.HTTPError` exactly for the
status codes 400–599; then `response.json()` raises
`requests.JSONDecodeError` when the body is not valid JSON; then
`if not response_json: raise requests.HTTPError`. -/
def requestBody (r : HttpResponse) : Except PyExc Json :=
  if 400 ≤ r.status ∧ r.status < 600 then .error .httpError
  else
    match r.body with
    | none => .error .jsonDecodeError
    | some j => if falsy j then .error .httpError else .ok j

/-- The ordered `except` clauses of `__make_request`, applied to the Python
exception raised by the body.  The clauses are tried in source order:
`requests.HTTPError` first, then `requests.RequestException`, then
`requests.JSONDecodeError`; an exception matched by no clause is re-raised
unchanged. -/
def handleRequestExc (params : Params) (url : String) (status : ℕ)
    (text : String) (e : PyExc) : LibError :=
  if isHTTPError e then .statusCodeError params url status text
  else if isRequestsException e then .sendRequestError params url
  else if isJSONDecodeError e then .decodingError params url status text
  else .pyError e

/-- Model of `__make_request`: run the GET (whose outcome is supplied as
`out`) through status validation, JSON parsing and the `except` clauses.
When no response was received (network failure), the raised
`requests.RequestException` is dispatched through the same clauses; the
handlers that read `response` are not reached in that case, so the
status/text arguments passed to them there are irrelevant placeholders. -/
def __make_request (params : Params) (url : String) (out : NetOutcome) :
    Except LibError Json :=
  match out with
  | .netFail => .error (handleRequestExc params url 0 "" .otherReqExc)
  | .response r =>
    match requestBody r with
    | .ok j => .ok j
    | .error e => .error (handleRequestExc params url r.status r.text e)

/-- Python `math.radians`: degrees to radians. -/
noncomputable def radians (x : ℝ) : ℝ := x * Real.pi / 180

/-- Model of `__haversine` on numeric coordinates: exactly the computation of
the source (radian conversion of both points, `dlat`, `dlon`, `hav`, then
`6371 * 2 * asin(sqrt(hav))`). -/
noncomputable def __haversine (point1 point2 : ℝ × ℝ) : ℝ :=
  let latitude1 := radians point1.1
  let latitude2 := radians point2.1
  let longitude1 := radians point1.2
  let longitude2 := radians point2.2
  let dlat := latitude2 - latitude1
  let dlon := longitude2 - longitude1
  let hav := Real.sin (dlat / 2) ^ 2 +
    Real.cos latitude1 * Real.cos latitude2 * Real.sin (dlon / 2) ^ 2
  6371 * 2 * Real.arcsin (Real.sqrt hav)

/-- The haversine formula as §4.1 of the spec words it: both points converted
to radians, `hav = sin²(Δlat/2) + cos(lat1)·cos(lat2)·sin²(Δlon/2)`, and
`distance = 2·R·asin(√hav)` on a sphere of radius `R = 6371` km. -/
noncomputable def haversineSpec (pointA pointB : ℝ × ℝ) : ℝ :=
  let lat1 := pointA.1 * Real.pi / 180
  let lat2 := pointB.1 * Real.pi / 180
  let lon1 := pointA.2 * Real.pi / 180
  let lon2 := pointB.2 * Real.pi / 180
  let hav := Real.sin ((lat2 - lat1) / 2) ^ 2 +
    Real.cos lat1 * Real.cos lat2 * Real.sin ((lon2 - lon1) / 2) ^ 2
  2 * 6371 * Real.arcsin (Real.sqrt hav)

/-- Exceptions the ranker loop can raise per post: the `KeyError` from a
missing `latitude`/`longitude` key, or the `HaversineFormulaError` that
`__haversine` raises itself (already wrapped) when a coordinate is not
numeric. -/
inductive RankExc : Type
  | keyErr
  | havErr (point1 : ℝ × ℝ) (point2 : RVal × RVal)

/-- Evaluation of `(post["latitude"], post["longitude"])`, left to right. -/
def getPoint (post : PostD) : Except RankExc (RVal × RVal) :=
  match dlookup post "latitude" with
  | none => .error .keyErr
  | some la =>
    match dlookup post "longitude" with
    | none => .error .keyErr
    | some lo => .ok (la, lo)

/-- A call `__haversine(reference_point, point2)` whose second point comes
from the post dict: `math.radians` raises a `TypeError` on a non-numeric
coordinate, which `__haversine` turns into a `HaversineFormulaError` carrying
both points.  On numeric coordinates the exact-real computation never raises
(`hav` lies in `[0, 1]`, so neither `sqrt` nor `asin` can fail). -/
noncomputable def havOnVals (ref : ℝ × ℝ) (pt : RVal × RVal) : Except RankExc ℝ :=
  match pt with
  | (.num la, .num lo) => .ok (__haversine ref (la, lo))
  | _ => .error (.havErr ref pt)

/-- One iteration of the ranker's `for` loop body: read the coordinates,
compute the distance, store it in the post under the `distance` key. -/
noncomputable def rankStep (ref : ℝ × ℝ) (post : PostD) :
    Except RankExc (PostD × ℝ) := do
  let pt ← getPoint post
  let d ← havOnVals ref pt
  return (dset post "distance" (.num d), d)

/-- The ranker's `for` loop over `enumerate(posts)`, threading the in-place
mutation of the caller's list: the first component is the state of the posts
after the loop (each post mutated once its iteration completed, untouched
from the point of failure on), the second the accumulated
`(distance, index)` pairs or the exception that aborted the loop. -/
noncomputable def rankLoop (ref : ℝ × ℝ) :
    List PostD → ℕ → List PostD × Except RankExc (List (ℝ × ℕ))
  | [], _ => ([], .ok [])
  | post :: rest, index =>
    match rankStep ref post with
    | .error e => (post :: rest, .error e)
    | .ok (post', d) =>
      let r := rankLoop ref rest (index + 1)
      (post' :: r.1,
        match r.2 with
        | .ok l => .ok ((d, index) :: l)
        | .error e => .error e)

/-- The order in which Python's `list.sort` arranges the `(distance, index)`
tuples: lexicographic, distance first, original index second. -/
def tupLe (a b : ℝ × ℕ) : Prop :=
  a.1 < b.1 ∨ (a.1 = b.1 ∧ a.2 ≤ b.2)

/-- Model of `distances.sort()`.  The indices occurring in the list are
distinct, and `tupLe` is antisymmetric, so the sorted result is unique:
insertion sort produces the same list as Python's stable sort. -/
noncomputable def sortPairs (l : List (ℝ × ℕ)) : List (ℝ × ℕ) :=
  @List.insertionSort _ tupLe (fun _ _ => Classical.propDecidable _) l

open Classical in
/-- The final list comprehension, iterating over the sorted pairs: keep
`posts[index]` when the distance is truthy and the post's `isOnline` value is
truthy.  Reading a missing `isOnline` key raises a `KeyError`; Python's `and`
short-circuits, so `isOnline` is not read at all when the distance is falsy.
The indices stem from `enumerate`, hence are in range and the indexing
`posts[index]` itself cannot fail. -/
noncomputable def selectPosts (posts : List PostD) :
    List (ℝ × ℕ) → Except Unit (List PostD)
  | [] => .ok []
  | (d, index) :: rest =>
    if d = 0 then selectPosts posts rest
    else
      match dlookup (posts.getD index []) "isOnline" with
      | none => .error ()
      | some v =>
        match selectPosts posts rest with
        | .error e => .error e
        | .ok out => .ok (if truthy v then posts.getD index [] :: out else out)

/-- Model of `sort_posts_in_order_of_increasing_distance`.  The first
component is the caller's posts list after the call (the source mutates the
post dicts in place); the second is the returned list or the raised
exception: a `HaversineFormulaError` propagates unchanged
(`except DistanceException: raise`), while a `KeyError` is wrapped into a
`SortPostsError` carrying the current posts list. -/
noncomputable def sort_posts_in_order_of_increasing_distance
    (posts : List PostD) (reference_point : ℝ × ℝ) :
    List PostD × Except LibError (List PostD) :=
  match rankLoop reference_point posts 0 with
  | (st, .error .keyErr) => (st, .error (.sortPostsError st))
  | (st, .error (.havErr p1 p2)) => (st, .error (.haversineFormulaError p1 p2))
  | (st, .ok prs) =>
    match selectPosts st (sortPairs prs) with
    | .error _ => (st, .error (.sortPostsError st))
    | .ok out => (st, .ok out)

/-- Flattening of one post record: `post.pop("geo")` (a `KeyError` when the
key is absent, a `TypeError`/`AttributeError` when the record is not a dict),
then merge the geo bindings into the record in iteration order
(`for dict_key, dict_value in post.pop("geo").items(): post[dict_key] = dict_value`);
`.items()` on a non-dict geo value raises an `AttributeError`. -/
def flattenPost : Json → Except PyExc (List (String × Json))
  | .obj fields =>
    match dpop fields "geo" with
    | none => .error .keyError
    | some (geo, rest) =>
      match geo with
      | .obj gfields => .ok (gfields.foldl (fun acc kv => dset acc kv.1 kv.2) rest)
      | _ => .error .attributeError
  | .arr _ => .error .typeError
  | _ => .error .attributeError

/-- The flattening loop of `get_available_posts` over the decoded posts
array, stopping at the first raised exception. -/
def flattenPosts : List Json → Except PyExc (List (List (String × Json)))
  | [] => .ok []
  | p :: ps =>
    match flattenPost p with
    | .error e => .error e
    | .ok fp =>
      match flattenPosts ps with
      | .error e => .error e
      | .ok rest => .ok (fp :: rest)

/-- Model of `get_available_posts`, taking the already-delivered result of
`__make_request(POSTS_URL)`: request errors propagate unchanged
(`except RequestException: raise`); flattening failures
(`TypeError`/`AttributeError`/`KeyError`) become a `GetPostsError`.
Iterating a non-list response raises likewise, except that an empty
dict/string is returned untouched (the loop body never runs).  The
`GetPostsError` payload is the decoded response (the source attaches the
partially mutated `posts` value; no property proved here inspects it). -/
def get_available_posts (r : Except LibError Json) : Except LibError Json :=
  match r with
  | .error e => .error e
  | .ok j =>
    match j with
    | .arr posts =>
      match flattenPosts posts with
      | .ok flat => .ok (.arr (flat.map .obj))
      | .error _ => .error (.getPostsError j)
    | .obj [] => .ok j
    | .str "" => .ok j
    | _ => .error (.getPostsError j)

/-- Python subscription `j[k]` with a string key: a `KeyError` on a dict
without the key, a `TypeError` on any non-dict. -/
def subscr (j : Json) (k : String) : Except PyExc Json :=
  match j with
  | .obj fields =>
    match dlookup fields k with
    | none => .error .keyError
    | some v => .ok v
  | _ => .error .typeError

/-- Python `xs[-1]`: the last element of a list (`IndexError` when empty),
the last character of a string, a `KeyError` on a dict (the key `-1` is
absent in JSON-decoded data), a `TypeError` otherwise. -/
def lastElem (j : Json) : Except PyExc Json :=
  match j with
  | .arr xs =>
    match xs.getLast? with
    | none => .error .indexError
    | some x => .ok x
  | .str s =>
    match s.data.getLast? with
    | none => .error .indexError
    | some c => .ok (.str (String.mk [c]))
  | .obj _ => .error .keyError
  | _ => .error .typeError

/-- Model of Python `str()` as used by the f-string `f"{dict_value} {...}"`.
The exact decimal rendering CPython uses for floats is not reproduced;
numbers are rendered as rationals.  The properties proved below depend only
on the concatenation structure of the formatted string. -/
def pyStr : Json → String
  | .null => "None"
  | .bool true => "True"
  | .bool false => "False"
  | .num q => toString q
  | .str s => s
  | .arr _ => "[...]"
  | .obj _ => "\x7b...\x7d"

/-- The body of the reformatting loop of `get_last_measurement_from_post`:
a field value whose key has an entry in the units map becomes the string
`"<value> <unit>"` (f-string concatenation); any other value is unchanged. -/
def fmtVal (us : List (String × Json)) (k : String) (v : Json) : Json :=
  if (dlookup us k).isSome then
    .str (pyStr v ++ " " ++ pyStr ((dlookup us k).getD .null))
  else v

/-- Body of the `try` block of `get_last_measurement_from_post`, applied to
the decoded measurements response: read `meta.units` and `data[-1]`, replace
the popped `aqi` field by `cityairAqi = aqi["cityairAqi"]["value"]`, then
reformat every field that has an entry in the units map to
`"<value> <unit>"`.  The `for ... in ....items()` loop updates each visited
key in place; since dict keys are distinct, it is the pointwise map written
here.  The `in` check against a non-dict units value is approximated as an
empty units map (§6 of the spec fixes an object shape there). -/
def measBody (meas : Json) : Except PyExc Json := do
  let meta ← subscr meas "meta"
  let units ← subscr meta "units"
  let dataArr ← subscr meas "data"
  let sample ← lastElem dataArr
  match sample with
  | .obj s =>
    match dpop s "aqi" with
    | none => .error .keyError
    | some (aqiVal, rest) => do
      let ca ← subscr aqiVal "cityairAqi"
      let v ← subscr ca "value"
      let us := match units with
        | .obj l => l
        | _ => ([] : List (String × Json))
      let withAqi := dset rest "cityairAqi" v
      return .obj (withAqi.map fun kv => (kv.1, fmtVal us kv.1 kv.2))
  | .arr _ => .error .typeError
  | _ => .error .attributeError

/-- The `except` clauses of `get_last_measurement_from_post`:
`AttributeError`/`IndexError`/`KeyError` become a `GetMeasurementError`
carrying the measurements payload; any other exception is re-raised
unchanged. -/
def handleMeasExc (meas : Json) (e : PyExc) : LibError :=
  match e with
  | .keyError => .getMeasurementError meas
  | .indexError => .getMeasurementError meas
  | .attributeError => .getMeasurementError meas
  | _ => .pyError e

/-- Model of `get_last_measurement_from_post`, taking the already-delivered
result of `__make_request(MEASUREMENTS_URL, ...)`: request errors propagate
unchanged (`except RequestException: raise`); the reshaping body runs through
the `except` clauses.  The query construction (the 5-minute UTC time bound
and the fixed query parameters) is transport input and outside this model. -/
def get_last_measurement_from_post (r : Except LibError Json) :
    Except LibError Json :=
  match r with
  | .error e => .error e
  | .ok meas =>
    match measBody meas with
    | .ok out => .ok out
    | .error e => .error (handleMeasExc meas e)

/-- The numeric value of an optional post field, with an irrelevant default
for the shapes the ranker rejects. -/
noncomputable def toNumD : Option RVal → ℝ
  | some (.num x) => x
  | _ => 0

/-- The haversine distance the ranker computes for a post. -/
noncomputable def postKey (ref : ℝ × ℝ) (post : PostD) : ℝ :=
  __haversine ref
    (toNumD (dlookup post "latitude"), toNumD (dlookup post "longitude"))

/-- The in-place mutation the ranker applies to a processed post: the
computed distance stored under the `distance` key. -/
noncomputable def mutPost (ref : ℝ × ℝ) (post : PostD) : PostD :=
  dset post "distance" (.num (postKey ref post))

/-- The `(distance, index)` pairs the ranker loop accumulates, described
directly by recursion over the posts. -/
noncomputable def specPairs (ref : ℝ × ℝ) : List PostD → ℕ → List (ℝ × ℕ)
  | [], _ => []
  | p :: ps, i => (postKey ref p, i) :: specPairs ref ps (i + 1)

open Classical in
/-- The ranker's filter as a predicate on a post: kept when its computed
distance is truthy (non-zero) and its `isOnline` value is truthy. -/
noncomputable def postKeep (ref : ℝ × ℝ) (post : PostD) : Bool :=
  decide (postKey ref post ≠ 0) &&
    match dlookup post "isOnline" with
    | none => false
    | some v => decide (truthy v)

open Classical in
/-- The comprehension's filter at the `(distance, index)` pair level. -/
noncomputable def pairKeep (posts : List PostD) (di : ℝ × ℕ) : Bool :=
  decide (di.1 ≠ 0) &&
    match dlookup (posts.getD di.2 []) "isOnline" with
    | none => false
    | some v => decide (truthy v)

/-- A post whose two coordinates are present and numeric: exactly the posts
one loop iteration processes without an exception. -/
def numericPost (post : PostD) : Prop :=
  (∃ x : ℝ, dlookup post "latitude" = some (.num x)) ∧
    (∃ y : ℝ, dlookup post "longitude" = some (.num y))

/-- The ranking described by the claim: mutate every post, keep the
`(distance, index)` pairs whose distance is non-zero and whose post's
`isOnline` is truthy, sort them by distance with ties broken by the
original index (`tupLe` is exactly that lexicographic order, and it is
antisymmetric on the pairs, so this sorted arrangement is unique), and
return the corresponding posts in that order. -/
noncomputable def rankedSpec (ref : ℝ × ℝ) (posts : List PostD) : List PostD :=
  let m := posts.map (mutPost ref)
  (sortPairs ((specPairs ref posts 0).filter (pairKeep m))).map
    (fun dj => m.getD dj.2 [])

instance : IsTrans (ℝ × ℕ) tupLe where
  trans a b c hab hbc := by
    rcases hab with h | ⟨h1, h2⟩ <;> rcases hbc with h' | ⟨h1', h2'⟩
    · exact Or.inl (lt_trans h h')
    · exact Or.inl (h1' ▸ h)
    · exact Or.inl (h1 ▸ h')
    · exact Or.inr ⟨h1.trans h1', h2.trans h2'⟩

instance : IsTotal (ℝ × ℕ) tupLe where
  total a b := by
    rcases lt_trichotomy a.1 b.1 with h | h | h
    · exact Or.inl (Or.inl h)
    · rcases Nat.le_total a.2 b.2 with h' | h'
      · exact Or.inl (Or.inr ⟨h, h'⟩)
      · exact Or.inr (Or.inr ⟨h.symm, h'⟩)
    · exact Or.inr (Or.inl h)

instance : IsAntisymm (ℝ × ℕ) tupLe where
  antisymm a b hab hba := by
    rcases hab with h | ⟨h1, h2⟩ <;> rcases hba with h' | ⟨h1', h2'⟩
    · exact absurd h' (lt_asymm h)
    · exact absurd h (h1' ▸ lt_irrefl _)
    · exact absurd h' (h1 ▸ lt_irrefl _)
    · exact Prod.ext h1 (Nat.le_antisymm h2 h2')

/-- The two-post fixture of the spec's ranking scenario, after geo
flattening: post id 1 at (10, 10), post id 2 at (0, 0), both online. -/
noncomputable def demoPost1 : PostD :=
  [("id", .num 1), ("latitude", .num 10), ("longitude", .num 10),
    ("isOnline", .bool true)]

/-- Second post of the ranking scenario, located at the reference point. -/
noncomputable def demoPost2 : PostD :=
  [("id", .num 2), ("latitude", .num 0), ("longitude", .num 0),
    ("isOnline", .bool true)]

/-- A well-formed measurements response used as a concrete witness input:
one unit entry for `pm25` and a single sample. -/
def demoMeas : Json :=
  .obj [("meta", .obj [("units", .obj [("pm25", .str "mg")])]),
    ("data", .arr [.obj [("pm25", .num 1),
      ("aqi", .obj [("cityairAqi", .obj [("value", .num 7)])])]])]

theorem dlookup_dset_self {v : Type} (d : List (String × v)) (k : String)
    (x : v) : dlookup (dset d k x) k = some x := by
  induction d with
  | nil => simp [dset, dlookup]
  | cons kv d ih =>
    obtain ⟨k', y⟩ := kv
    by_cases h : k' = k
    · simp [dset, dlookup, h]
    · simp [dset, dlookup, h, ih]

theorem dlookup_dset_ne {v : Type} (d : List (String × v)) (k k' : String)
    (x : v) (hne : k' ≠ k) : dlookup (dset d k x) k' = dlookup d k' := by
  induction d with
  | nil => simp [dset, dlookup, Ne.symm hne]
  | cons kv d ih =>
    obtain ⟨k0, y⟩ := kv
    by_cases h : k0 = k
    · subst h
      simp [dset, dlookup, Ne.symm hne]
    · simp only [dset, if_neg h]
      by_cases h' : k0 = k'
      · simp [dlookup, h']
      · simp [dlookup, h', ih]

theorem dlookup_eq_none_iff {v : Type} (d : List (String × v)) (k : String) :
    dlookup d k = none ↔ k ∉ d.map Prod.fst := by
  induction d with
  | nil => simp [dlookup]
  | cons kv d ih =>
    obtain ⟨k0, y⟩ := kv
    by_cases h : k0 = k
    · simp [dlookup, h]
    · simp [dlookup, h, ih, Ne.symm h]

theorem dpop_eq_none_iff {v : Type} (d : List (String × v)) (k : String) :
    dpop d k = none ↔ dlookup d k = none := by
  induction d with
  | nil => simp [dpop, dlookup]
  | cons kv d ih =>
    obtain ⟨k0, y⟩ := kv
    by_cases h : k0 = k
    · simp [dpop, dlookup, h]
    · simp [dpop, dlookup, h, ih]

theorem dpop_some_lookup {v : Type} {d rest : List (String × v)} {k : String}
    {x : v} (h : dpop d k = some (x, rest)) : dlookup d k = some x := by
  induction d generalizing rest with
  | nil => simp [dpop] at h
  | cons kv d ih =>
    obtain ⟨k0, y⟩ := kv
    by_cases hk : k0 = k
    · simp [dpop, hk] at h
      simp [dlookup, hk, h.1]
    · simp only [dpop, if_neg hk, Option.map_eq_some'] at h
      obtain ⟨⟨x', rest'⟩, hp, heq⟩ := h
      simp only [Prod.mk.injEq] at heq
      rw [heq.1] at hp
      simp only [dlookup, if_neg hk]
      exact ih hp

theorem dpop_some_lookup_ne {v : Type} {d rest : List (String × v)}
    {k : String} {x : v} (h : dpop d k = some (x, rest)) (k' : String)
    (hne : k' ≠ k) : dlookup rest k' = dlookup d k' := by
  induction d generalizing rest with
  | nil => simp [dpop] at h
  | cons kv d ih =>
    obtain ⟨k0, y⟩ := kv
    by_cases hk : k0 = k
    · simp [dpop, hk] at h
      subst hk
      rw [← h.2]
      simp [dlookup, Ne.symm hne]
    · simp only [dpop, if_neg hk, Option.map_eq_some'] at h
      obtain ⟨⟨x', rest'⟩, hp, heq⟩ := h
      simp only [Prod.mk.injEq] at heq
      rw [heq.1] at hp
      rw [← heq.2]
      by_cases h' : k0 = k'
      · simp [dlookup, h']
      · simp only [dlookup, if_neg h']
        exact ih hp

theorem dpop_some_lookup_self {v : Type} {d rest : List (String × v)}
    {k : String} {x : v} (h : dpop d k = some (x, rest))
    (hnd : (d.map Prod.fst).Nodup) : dlookup rest k = none := by
  induction d generalizing rest with
  | nil => simp [dpop] at h
  | cons kv d ih =>
    obtain ⟨k0, y⟩ := kv
    simp only [List.map_cons, List.nodup_cons] at hnd
    by_cases hk : k0 = k
    · simp [dpop, hk] at h
      rw [← h.2, dlookup_eq_none_iff]
      exact hk ▸ hnd.1
    · simp only [dpop, if_neg hk, Option.map_eq_some'] at h
      obtain ⟨⟨x', rest'⟩, hp, heq⟩ := h
      simp only [Prod.mk.injEq] at heq
      rw [heq.1] at hp
      rw [← heq.2]
      simp only [dlookup, if_neg hk]
      exact ih hp hnd.2

theorem dlookup_foldl_dset {v : Type} (g : List (String × v))
    (hg : (g.map Prod.fst).Nodup) (acc : List (String × v)) (k : String) :
    dlookup (g.foldl (fun a kv => dset a kv.1 kv.2) acc) k =
      match dlookup g k with
      | some x => some x
      | none => dlookup acc k := by
  induction g generalizing acc with
  | nil => simp [dlookup]
  | cons kv g ih =>
    obtain ⟨k0, y⟩ := kv
    simp only [List.map_cons, List.nodup_cons] at hg
    simp only [List.foldl_cons]
    rw [ih hg.2]
    by_cases hk : k0 = k
    · subst hk
      have : dlookup g k0 = none := by
        rw [dlookup_eq_none_iff]
        exact hg.1
      simp [dlookup, this, dlookup_dset_self]
    · simp only [dlookup, if_neg hk]
      cases hlg : dlookup g k with
      | none => simp [dlookup_dset_ne acc k0 k y (Ne.symm hk)]
      | some x => simp

theorem __haversine_def (a b c d : ℝ) : __haversine (a, b) (c, d) =
    6371 * 2 * Real.arcsin (Real.sqrt (Real.sin ((radians c - radians a) / 2) ^ 2 +
      Real.cos (radians a) * Real.cos (radians c) *
        Real.sin ((radians d - radians b) / 2) ^ 2)) := rfl

theorem __haversine_self (p : ℝ × ℝ) : __haversine p p = 0 := by
  obtain ⟨a, b⟩ := p
  rw [__haversine_def]
  simp

theorem __haversine_symm (p q : ℝ × ℝ) : __haversine p q = __haversine q p := by
  obtain ⟨a, b⟩ := p
  obtain ⟨c, d⟩ := q
  have hs : ∀ x y : ℝ, Real.sin ((x - y) / 2) ^ 2 = Real.sin ((y - x) / 2) ^ 2 := by
    intro x y
    rw [show (x - y) / 2 = -((y - x) / 2) by ring, Real.sin_neg]
    ring
  rw [__haversine_def, __haversine_def, hs (radians c) (radians a),
    hs (radians d) (radians b),
    mul_comm (Real.cos (radians a)) (Real.cos (radians c))]

theorem __haversine_eq_spec (p q : ℝ × ℝ) : __haversine p q = haversineSpec p q := by
  obtain ⟨a, b⟩ := p
  obtain ⟨c, d⟩ := q
  rw [__haversine_def]
  show _ = 2 * 6371 * Real.arcsin (Real.sqrt (Real.sin ((c * Real.pi / 180 - a * Real.pi / 180) / 2) ^ 2 +
    Real.cos (a * Real.pi / 180) * Real.cos (c * Real.pi / 180) *
      Real.sin ((d * Real.pi / 180 - b * Real.pi / 180) / 2) ^ 2))
  rw [show (6371 : ℝ) * 2 = 2 * 6371 by ring]
  rfl

theorem __haversine_nonneg (p q : ℝ × ℝ) : 0 ≤ __haversine p q := by
  obtain ⟨a, b⟩ := p
  obtain ⟨c, d⟩ := q
  rw [__haversine_def]
  exact mul_nonneg (by norm_num) (Real.arcsin_nonneg.mpr (Real.sqrt_nonneg _))

theorem __haversine_pos {a b c d : ℝ}
    (h : 0 < Real.sin ((radians c - radians a) / 2) ^ 2 +
      Real.cos (radians a) * Real.cos (radians c) *
        Real.sin ((radians d - radians b) / 2) ^ 2) :
    0 < __haversine (a, b) (c, d) := by
  rw [__haversine_def]
  exact mul_pos (by norm_num) (Real.arcsin_pos.mpr (Real.sqrt_pos.mpr h))

theorem demo_hav_pos : 0 < __haversine (0, 0) (10, 10) := by
  have hpi := Real.pi_pos
  have h10 : radians 10 = Real.pi / 18 := by unfold radians; ring
  have h0 : radians 0 = 0 := by unfold radians; ring
  apply __haversine_pos
  rw [h10, h0]
  have hsin : 0 < Real.sin ((Real.pi / 18 - 0) / 2) := by
    rw [show (Real.pi / 18 - 0) / 2 = Real.pi / 36 by ring]
    exact Real.sin_pos_of_pos_of_lt_pi (by linarith) (by linarith)
  have hcos : 0 < Real.cos (Real.pi / 18) := by
    apply Real.cos_pos_of_mem_Ioo
    rw [Set.mem_Ioo]
    constructor <;> linarith
  rw [Real.cos_zero, one_mul]
  exact add_pos (pow_pos hsin 2) (mul_pos hcos (pow_pos hsin 2))

theorem __haversine_quarter : __haversine (0, 0) (0, 90) = 6371 * Real.pi / 2 := by
  have hpi := Real.pi_pos
  have h90 : radians 90 = Real.pi / 2 := by unfold radians; ring
  have h0 : radians 0 = 0 := by unfold radians; ring
  have hs4 : Real.sin (Real.pi / 2 / 2) = Real.sqrt 2 / 2 := by
    rw [show Real.pi / 2 / 2 = Real.pi / 4 by ring]
    exact Real.sin_pi_div_four
  have hsqrt : Real.sqrt (1 / 2 : ℝ) = Real.sqrt 2 / 2 := by
    rw [show (1 / 2 : ℝ) = (Real.sqrt 2 / 2) ^ 2 by
      rw [div_pow, Real.sq_sqrt (by norm_num : (0:ℝ) ≤ 2)]
      norm_num]
    exact Real.sqrt_sq (by positivity)
  have harc : Real.arcsin (Real.sqrt 2 / 2) = Real.pi / 4 := by
    rw [← Real.sin_pi_div_four]
    exact Real.arcsin_sin (by linarith) (by linarith)
  rw [__haversine_def, h90, h0]
  rw [show ((0:ℝ) - 0) / 2 = 0 by ring,
    show (Real.pi / 2 - 0) / 2 = Real.pi / 2 / 2 by ring]
  rw [Real.sin_zero, Real.cos_zero, hs4]
  rw [show (0:ℝ) ^ 2 + 1 * 1 * (Real.sqrt 2 / 2) ^ 2 = (1:ℝ) / 2 by
    rw [div_pow, Real.sq_sqrt (by norm_num : (0:ℝ) ≤ 2)]
    norm_num]
  rw [hsqrt, harc]
  ring

/-- C5: `__haversine` computes exactly the haversine formula stated in the
spec (radian conversion, `hav = sin²(Δlat/2) + cos(lat1)·cos(lat2)·sin²(Δlon/2)`,
`distance = 2·R·asin(√hav)` with `R = 6371` km), and the distance between
(0,0) and (0,90) is within 0.1 km of 10007.5 km. -/
theorem C5_haversine_matches_spec_formula :
    (∀ p q : ℝ × ℝ, __haversine p q = haversineSpec p q) ∧
      |__haversine (0, 0) (0, 90) - 10007.5| < 0.1 := by
  refine ⟨__haversine_eq_spec, ?_⟩
  rw [__haversine_quarter, abs_lt]
  constructor <;> linarith [Real.pi_gt_d6, Real.pi_lt_d6]

/-- C6: the haversine distance from a point to itself is 0, and the distance
function is symmetric in its two points. -/
theorem C6_haversine_self_zero_and_symm :
    (∀ p : ℝ × ℝ, __haversine p p = 0) ∧
      ∀ p q : ℝ × ℝ, __haversine p q = __haversine q p :=
  ⟨__haversine_self, __haversine_symm⟩

/-- C3 (code bug): on a successful status whose body is not valid JSON,
`__make_request` raises `SendRequestError`, not the documented
`DecodingError`: `requests.JSONDecodeError` is a subclass of
`requests.RequestException` (requests ≥ 2.27), so the earlier
`except requests.RequestException` clause catches it first and the
`DecodingError` clause is unreachable. -/
theorem C3_nonjson_body_gives_sendRequestError :
    __make_request [] "u" (.response ⟨200, "not json", none⟩) =
      .error (.sendRequestError [] "u") := rfl

/-- C4 (counterexample): a response with the non-2xx status 300 and a
non-empty JSON body is returned successfully — `raise_for_status` raises
only for the 4xx/5xx range, so no `StatusCodeError` is raised although the
status is not 2xx. -/
theorem C4_status300_no_statusCodeError :
    __make_request [] "u" (.response ⟨300, "t", some (.arr [.num 1])⟩) =
      .ok (.arr [.num 1]) := rfl

/-- C4 (amended): `__make_request` raises `StatusCodeError` carrying the
params, url, status code and raw text exactly when the response status is a
4xx/5xx error or the body parses to an empty/falsy JSON value; in
particular any HTTP 500 response raises a `StatusCodeError` containing
status code 500. -/
theorem C4_statusCodeError_iff :
    ∀ (params : Params) (url : String) (r : HttpResponse),
      (__make_request params url (.response r) =
          .error (.statusCodeError params url r.status r.text) ↔
        ((400 ≤ r.status ∧ r.status < 600) ∨
          ∃ j, r.body = some j ∧ falsy j = true)) ∧
      (r.status = 500 → __make_request params url (.response r) =
        .error (.statusCodeError params url 500 r.text)) := by
  intro params url r
  have main : __make_request params url (.response r) =
      .error (.statusCodeError params url r.status r.text) ↔
      ((400 ≤ r.status ∧ r.status < 600) ∨
        ∃ j, r.body = some j ∧ falsy j = true) := by
    unfold __make_request requestBody handleRequestExc
    by_cases h4 : 400 ≤ r.status ∧ r.status < 600
    · simp [h4, isHTTPError]
    · simp only [if_neg h4]
      cases hb : r.body with
      | none =>
        simp [isHTTPError, isRequestsException, isJSONDecodeError, h4]
      | some j =>
        by_cases hf : falsy j
        · simp [hf, isHTTPError, h4]
        · simp [hf, h4]
  refine ⟨main, fun h5 => ?_⟩
  rw [show Except.error (LibError.statusCodeError params url 500 r.text) =
      Except.error (LibError.statusCodeError params url r.status r.text) by rw [h5]]
  rw [main]
  exact Or.inl (by omega)

/-- Witness for the amended C4 at a concrete HTTP 500 response. -/
theorem C4_statusCodeError_iff_witness :
    __make_request [] "u" (.response ⟨500, "boom", some .null⟩) =
      .error (.statusCodeError [] "u" 500 "boom") :=
  (C4_statusCodeError_iff [] "u" ⟨500, "boom", some .null⟩).2 rfl

/-- C7: request errors propagate unchanged through `get_available_posts` and
`get_last_measurement_from_post`, and a `HaversineFormulaError` raised while
ranking propagates unchanged through
`sort_posts_in_order_of_increasing_distance`; none of the three operations
re-wraps them into `GetPostsError`, `SortPostsError` or
`GetMeasurementError`. -/
theorem C7_domain_errors_propagate_unchanged :
    (∀ e : LibError, isRequestError e = true →
      get_available_posts (.error e) = .error e) ∧
    (∀ (ref : ℝ × ℝ) (posts st : List PostD) (p1 : ℝ × ℝ) (p2 : RVal × RVal),
      rankLoop ref posts 0 = (st, .error (.havErr p1 p2)) →
      sort_posts_in_order_of_increasing_distance posts ref =
        (st, .error (.haversineFormulaError p1 p2))) ∧
    (∀ e : LibError, isRequestError e = true →
      get_last_measurement_from_post (.error e) = .error e) := by
  refine ⟨fun e _ => rfl, ?_, fun e _ => rfl⟩
  intro ref posts st p1 p2 h
  unfold sort_posts_in_order_of_increasing_distance
  rw [h]

/-- Witness for C7 at concrete inputs: a `DecodingError` through the
accessor, a post with a non-numeric latitude through the ranker, and a
`SendRequestError` through the fetcher. -/
theorem C7_domain_errors_propagate_unchanged_witness :
    get_available_posts (.error (.decodingError [] "u" 200 "t")) =
        .error (.decodingError [] "u" 200 "t") ∧
      sort_posts_in_order_of_increasing_distance
          [[("latitude", .str "x"), ("longitude", .num 0)]] (0, 0) =
        ([[("latitude", .str "x"), ("longitude", .num 0)]],
          .error (.haversineFormulaError (0, 0) (.str "x", .num 0))) ∧
      get_last_measurement_from_post (.error (.sendRequestError [] "w")) =
        .error (.sendRequestError [] "w") := by
  refine ⟨C7_domain_errors_propagate_unchanged.1 _ rfl, ?_,
    C7_domain_errors_propagate_unchanged.2.2 _ rfl⟩
  exact C7_domain_errors_propagate_unchanged.2.1 _ _ _ _ _ rfl

/-- C10 (counterexample): when the nested geo object itself contains a key
named `geo`, the flattening re-adds that key after popping it, so the `geo`
key is not always removed from the flattened record. -/
theorem C10_geo_key_can_survive :
    flattenPost (.obj [("geo", .obj [("geo", .num 5)])]) =
        .ok [("geo", .num 5)] ∧
      dlookup [("geo", Json.num 5)] "geo" = some (.num 5) := ⟨rfl, rfl⟩

/-- C10 (amended): flattening merges the popped geo object's bindings over
the record, so geo values win on colliding keys, non-colliding top-level
keys keep their original values, and the `geo` key itself is absent from the
result unless the nested geo object contains a key named `geo` (in which
case that nested value reappears under it). -/
theorem C10_flatten_geo_overrides (fields g rest : List (String × Json))
    (hnf : (fields.map Prod.fst).Nodup) (hng : (g.map Prod.fst).Nodup)
    (hpop : dpop fields "geo" = some (.obj g, rest)) :
    flattenPost (.obj fields) =
        .ok (g.foldl (fun a kv => dset a kv.1 kv.2) rest) ∧
      get_available_posts (.ok (.arr [.obj fields])) =
        .ok (.arr [.obj (g.foldl (fun a kv => dset a kv.1 kv.2) rest)]) ∧
      ∀ k, dlookup (g.foldl (fun a kv => dset a kv.1 kv.2) rest) k =
        match dlookup g k with
        | some v => some v
        | none => if k = "geo" then none else dlookup fields k := by
  have hflat : flattenPost (.obj fields) =
      .ok (g.foldl (fun a kv => dset a kv.1 kv.2) rest) := by
    simp [flattenPost, hpop]
  refine ⟨hflat, ?_, ?_⟩
  · simp [get_available_posts, flattenPosts, hflat]
  · intro k
    rw [dlookup_foldl_dset g hng rest k]
    cases hlg : dlookup g k with
    | some v => simp
    | none =>
      simp only []
      by_cases hk : k = "geo"
      · subst hk
        rw [if_pos rfl]
        exact dpop_some_lookup_self hpop hnf
      · rw [if_neg hk]
        exact dpop_some_lookup_ne hpop k hk

/-- Witness for the amended C10: a record with a colliding key `a`, a fresh
geo key `b`, and an untouched key `c`. -/
theorem C10_flatten_geo_overrides_witness :
    dlookup (List.foldl (fun a kv => dset a kv.1 kv.2)
        [("a", Json.num 1), ("c", Json.num 9)]
        [("a", Json.num 2), ("b", Json.num 3)]) "a" = some (Json.num 2) ∧
      dlookup (List.foldl (fun a kv => dset a kv.1 kv.2)
        [("a", Json.num 1), ("c", Json.num 9)]
        [("a", Json.num 2), ("b", Json.num 3)]) "geo" = none ∧
      dlookup (List.foldl (fun a kv => dset a kv.1 kv.2)
        [("a", Json.num 1), ("c", Json.num 9)]
        [("a", Json.num 2), ("b", Json.num 3)]) "c" = some (Json.num 9) := by
  have h := C10_flatten_geo_overrides
    [("a", Json.num 1), ("geo", Json.obj [("a", Json.num 2), ("b", Json.num 3)]),
      ("c", Json.num 9)]
    [("a", Json.num 2), ("b", Json.num 3)]
    [("a", Json.num 1), ("c", Json.num 9)]
    (by decide) (by decide) rfl
  exact ⟨(h.2.2 "a").trans rfl, (h.2.2 "geo").trans rfl, (h.2.2 "c").trans rfl⟩

theorem dlookup_map_val {v w : Type} (f : String → v → w)
    (d : List (String × v)) (k : String) :
    dlookup (d.map fun kv => (kv.1, f kv.1 kv.2)) k = (dlookup d k).map (f k) := by
  induction d with
  | nil => simp [dlookup]
  | cons kv d ih =>
    obtain ⟨k0, y⟩ := kv
    by_cases h : k0 = k
    · subst h
      simp [dlookup]
    · simp [dlookup, h, ih]

/-- C8: on a well-formed measurements response,
`get_last_measurement_from_post` returns the last element of `data` with
its `aqi` field removed, a `cityairAqi` key holding the nested
`aqi.cityairAqi.value`, and every field whose key appears in `meta.units`
reformatted to the concatenation `"<value> <unit>"` (the reformatting pass
runs over the record after the `aqi` replacement, so it covers `cityairAqi`
itself when that key appears in the units map). -/
theorem C8_measurement_reshaping
    (m mt us : List (String × Json)) (ds : List Json)
    (s rest aq ca : List (String × Json)) (v : Json)
    (hm : dlookup m "meta" = some (.obj mt))
    (hu : dlookup mt "units" = some (.obj us))
    (hd : dlookup m "data" = some (.arr ds))
    (hlast : ds.getLast? = some (.obj s))
    (hnd : (s.map Prod.fst).Nodup)
    (haqi : dpop s "aqi" = some (.obj aq, rest))
    (hca : dlookup aq "cityairAqi" = some (.obj ca))
    (hv : dlookup ca "value" = some v) :
    get_last_measurement_from_post (.ok (.obj m)) =
        .ok (.obj ((dset rest "cityairAqi" v).map fun kv =>
          (kv.1, fmtVal us kv.1 kv.2))) ∧
      dlookup ((dset rest "cityairAqi" v).map fun kv =>
          (kv.1, fmtVal us kv.1 kv.2)) "aqi" = none ∧
      dlookup ((dset rest "cityairAqi" v).map fun kv =>
          (kv.1, fmtVal us kv.1 kv.2)) "cityairAqi" =
        some (fmtVal us "cityairAqi" v) ∧
      ∀ k, k ≠ "aqi" → k ≠ "cityairAqi" →
        dlookup ((dset rest "cityairAqi" v).map fun kv =>
            (kv.1, fmtVal us kv.1 kv.2)) k = (dlookup s k).map (fmtVal us k) := by
  refine ⟨?_, ?_, ?_, ?_⟩
  · unfold get_last_measurement_from_post measBody subscr lastElem
    simp [hm, hu, hd, hlast, haqi, hca, hv, bind, Except.bind, Functor.map,
      Except.map, pure, Except.pure]
  · rw [dlookup_map_val]
    rw [dlookup_dset_ne rest "cityairAqi" "aqi" v (by decide)]
    rw [dpop_some_lookup_self haqi hnd]
    rfl
  · rw [dlookup_map_val, dlookup_dset_self]
    rfl
  · intro k hka hkc
    rw [dlookup_map_val, dlookup_dset_ne rest "cityairAqi" k v hkc,
      dpop_some_lookup_ne haqi k hka]

/-- Witness for C8 at a concrete measurements response with one unit entry. -/
theorem C8_measurement_reshaping_witness :
    get_last_measurement_from_post (.ok demoMeas) =
        .ok (.obj [("pm25", .str "1 mg"), ("cityairAqi", .num 7)]) ∧
      dlookup [("pm25", Json.str "1 mg"), ("cityairAqi", Json.num 7)] "pm25" =
        some (.str "1 mg") := by
  have h := C8_measurement_reshaping
    [("meta", .obj [("units", .obj [("pm25", .str "mg")])]),
      ("data", .arr [.obj [("pm25", .num 1),
        ("aqi", .obj [("cityairAqi", .obj [("value", .num 7)])])]])]
    [("units", .obj [("pm25", .str "mg")])]
    [("pm25", .str "mg")]
    [.obj [("pm25", .num 1),
      ("aqi", .obj [("cityairAqi", .obj [("value", .num 7)])])]]
    [("pm25", .num 1),
      ("aqi", .obj [("cityairAqi", .obj [("value", .num 7)])])]
    [("pm25", .num 1)]
    [("cityairAqi", .obj [("value", .num 7)])]
    [("value", .num 7)]
    (.num 7)
    rfl rfl rfl rfl (by decide) rfl rfl rfl
  exact ⟨h.1.trans rfl, rfl⟩

theorem getPoint_ok {post : PostD} {va vb : RVal}
    (h : getPoint post = .ok (va, vb)) :
    dlookup post "latitude" = some va ∧ dlookup post "longitude" = some vb := by
  unfold getPoint at h
  cases hla : dlookup post "latitude" with
  | none =>
    rw [hla] at h
    exact absurd h (by simp)
  | some la =>
    rw [hla] at h
    cases hlo : dlookup post "longitude" with
    | none =>
      rw [hlo] at h
      exact absurd h (by simp)
    | some lo =>
      rw [hlo] at h
      simp only [Except.ok.injEq, Prod.mk.injEq] at h
      rw [h.1, h.2]
      exact ⟨rfl, rfl⟩

theorem rankStep_ok {ref : ℝ × ℝ} {post p' : PostD} {d : ℝ}
    (h : rankStep ref post = .ok (p', d)) :
    p' = mutPost ref post ∧ d = postKey ref post := by
  unfold rankStep at h
  cases hgp : getPoint post with
  | error e => simp [hgp, bind, Except.bind] at h
  | ok pt =>
    obtain ⟨va, vb⟩ := pt
    have hlk := getPoint_ok hgp
    simp only [hgp, bind, Except.bind] at h
    cases va <;> cases vb <;>
      simp only [havOnVals, pure, Except.pure] at h
    case num.num x y =>
      simp only [Except.ok.injEq, Prod.mk.injEq] at h
      refine ⟨?_, ?_⟩
      · rw [← h.1]
        unfold mutPost postKey
        rw [hlk.1, hlk.2]
        rfl
      · rw [← h.2]
        unfold postKey
        rw [hlk.1, hlk.2]
        rfl
    all_goals simp at h

theorem rankLoop_ok {ref : ℝ × ℝ} :
    ∀ {posts : List PostD} {i : ℕ} {st : List PostD} {prs : List (ℝ × ℕ)},
      rankLoop ref posts i = (st, .ok prs) →
      st = posts.map (mutPost ref) ∧ prs = specPairs ref posts i := by
  intro posts
  induction posts with
  | nil =>
    intro i st prs h
    simp only [rankLoop, Prod.mk.injEq] at h
    obtain ⟨h1, h2⟩ := h
    simp only [Except.ok.injEq] at h2
    rw [← h1, ← h2]
    exact ⟨rfl, rfl⟩
  | cons p ps ih =>
    intro i st prs h
    unfold rankLoop at h
    cases hstep : rankStep ref p with
    | error e =>
      rw [hstep] at h
      simp at h
    | ok pd =>
      obtain ⟨p', d⟩ := pd
      rw [hstep] at h
      simp only [] at h
      cases hr : rankLoop ref ps (i + 1) with
      | mk st' res =>
        rw [hr] at h
        cases res with
        | error e => simp at h
        | ok l =>
          simp only [Prod.mk.injEq, Except.ok.injEq] at h
          obtain ⟨hst, hprs⟩ := h
          obtain ⟨h1, h2⟩ := ih hr
          obtain ⟨hp', hd⟩ := rankStep_ok hstep
          constructor
          · rw [← hst, h1, hp']
            rfl
          · rw [← hprs, h2, hd]
            rfl

theorem rankLoop_state (ref : ℝ × ℝ) :
    ∀ (posts : List PostD) (i : ℕ),
      ∃ k, k ≤ posts.length ∧
        (rankLoop ref posts i).1 =
          (posts.take k).map (mutPost ref) ++ posts.drop k ∧
        ∀ prs, (rankLoop ref posts i).2 = .ok prs → k = posts.length := by
  intro posts
  induction posts with
  | nil =>
    intro i
    exact ⟨0, Nat.le_refl _, by simp [rankLoop], fun _ _ => rfl⟩
  | cons p ps ih =>
    intro i
    cases hstep : rankStep ref p with
    | error e =>
      refine ⟨0, Nat.zero_le _, ?_, ?_⟩
      · simp [rankLoop, hstep]
      · intro prs h
        simp [rankLoop, hstep] at h
    | ok pd =>
      obtain ⟨p', d⟩ := pd
      obtain ⟨k, hk, hst, hok⟩ := ih (i + 1)
      obtain ⟨hp', hd⟩ := rankStep_ok hstep
      refine ⟨k + 1, Nat.succ_le_succ hk, ?_, ?_⟩
      · simp only [rankLoop, hstep, List.take_succ_cons, List.drop_succ_cons,
          List.map_cons, List.cons_append]
        rw [hp', hst]
      · intro prs h
        simp only [rankLoop, hstep] at h
        cases hr2 : (rankLoop ref ps (i + 1)).2 with
        | error e =>
          rw [hr2] at h
          simp at h
        | ok l =>
          rw [hr2] at h
          rw [List.length_cons, hok l hr2]

theorem specPairs_mem {ref : ℝ × ℝ} :
    ∀ {posts : List PostD} {i : ℕ} {dj : ℝ × ℕ},
      dj ∈ specPairs ref posts i →
      i ≤ dj.2 ∧ dj.2 - i < posts.length ∧
        dj.1 = postKey ref (posts.getD (dj.2 - i) []) := by
  intro posts
  induction posts with
  | nil =>
    intro i dj h
    simp [specPairs] at h
  | cons p ps ih =>
    intro i dj h
    simp only [specPairs, List.mem_cons] at h
    rcases h with h | h
    · subst h
      refine ⟨Nat.le_refl _, ?_, ?_⟩
      · simp
      · simp
    · obtain ⟨h1, h2, h3⟩ := ih h
      refine ⟨by omega, by simp; omega, ?_⟩
      have hix : dj.2 - i = (dj.2 - (i + 1)) + 1 := by omega
      rw [hix]
      simpa using h3

theorem getD_map_lt {α β : Type} (f : α → β) (d1 : α) (d2 : β) :
    ∀ (l : List α) (j : ℕ), j < l.length →
      (l.map f).getD j d2 = f (l.getD j d1) := by
  intro l
  induction l with
  | nil => intro j hj; simp at hj
  | cons a l ih =>
    intro j hj
    cases j with
    | zero => simp
    | succ j =>
      simp only [List.map_cons, List.getD_cons_succ]
      exact ih j (by simpa using hj)

theorem postKey_mutPost (ref : ℝ × ℝ) (p : PostD) :
    postKey ref (mutPost ref p) = postKey ref p := by
  unfold postKey mutPost
  rw [dlookup_dset_ne p "distance" "latitude" _ (by decide),
    dlookup_dset_ne p "distance" "longitude" _ (by decide)]

theorem isOnline_mutPost (ref : ℝ × ℝ) (p : PostD) :
    dlookup (mutPost ref p) "isOnline" = dlookup p "isOnline" := by
  unfold mutPost
  exact dlookup_dset_ne p "distance" "isOnline" _ (by decide)

theorem sortPairs_perm (l : List (ℝ × ℕ)) : (sortPairs l).Perm l := by
  unfold sortPairs
  exact @List.perm_insertionSort _ tupLe (fun _ _ => Classical.propDecidable _) l

theorem sortPairs_sorted (l : List (ℝ × ℕ)) : List.Sorted tupLe (sortPairs l) := by
  unfold sortPairs
  letI : DecidableRel tupLe := fun _ _ => Classical.propDecidable _
  exact List.sorted_insertionSort tupLe l

theorem sortPairs_filter_comm (q : (ℝ × ℕ) → Bool) (l : List (ℝ × ℕ)) :
    (sortPairs l).filter q = sortPairs (l.filter q) :=
  List.eq_of_perm_of_sorted
    (((sortPairs_perm l).filter q).trans (sortPairs_perm (l.filter q)).symm)
    ((sortPairs_sorted l).filter q)
    (sortPairs_sorted _)

theorem selectPosts_ok {m : List PostD} :
    ∀ {l : List (ℝ × ℕ)} {out : List PostD},
      selectPosts m l = .ok out →
      out = (l.filter (pairKeep m)).map (fun dj => m.getD dj.2 []) := by
  intro l
  induction l with
  | nil =>
    intro out h
    simp only [selectPosts, Except.ok.injEq] at h
    rw [← h]
    rfl
  | cons dj rest ih =>
    intro out h
    obtain ⟨d, j⟩ := dj
    by_cases hd : d = 0
    · simp only [selectPosts, if_pos hd] at h
      have hk : pairKeep m (d, j) = false := by
        unfold pairKeep
        dsimp only
        simp [hd]
      rw [ih h, List.filter_cons, hk]
      simp
    · simp only [selectPosts, if_neg hd] at h
      cases hlk : dlookup (m.getD j []) "isOnline" with
      | none =>
        rw [hlk] at h
        simp at h
      | some v =>
        rw [hlk] at h
        cases hrest : selectPosts m rest with
        | error e =>
          rw [hrest] at h
          simp at h
        | ok out' =>
          rw [hrest] at h
          simp only [Except.ok.injEq] at h
          by_cases htr : truthy v
          · rw [if_pos htr] at h
            have hk : pairKeep m (d, j) = true := by
              unfold pairKeep
              dsimp only
              rw [hlk]
              simp only [Bool.and_eq_true, decide_eq_true_eq]
              exact ⟨hd, htr⟩
            rw [← h, ih hrest, List.filter_cons, hk]
            simp
          · rw [if_neg htr] at h
            have hk : pairKeep m (d, j) = false := by
              apply Bool.eq_false_iff.mpr
              unfold pairKeep
              dsimp only
              rw [hlk]
              simp only [ne_eq, Bool.and_eq_true, decide_eq_true_eq]
              rintro ⟨-, hc⟩
              exact htr hc
            rw [← h, ih hrest, List.filter_cons, hk]
            simp

theorem sorted_projected {ref : ℝ × ℝ} {m : List PostD} {l : List (ℝ × ℕ)}
    (hsort : List.Sorted tupLe l)
    (hinv : ∀ dj ∈ l, dj.1 = postKey ref (m.getD dj.2 [])) :
    List.Sorted (fun p q => postKey ref p ≤ postKey ref q)
      ((l.filter (pairKeep m)).map (fun dj => m.getD dj.2 [])) := by
  unfold List.Sorted
  rw [List.pairwise_map]
  apply List.Pairwise.imp_of_mem ?_ (hsort.filter _)
  intro a b ha hb hab
  have ha' := hinv a (List.mem_of_mem_filter ha)
  have hb' := hinv b (List.mem_of_mem_filter hb)
  rw [← ha', ← hb']
  rcases hab with h | ⟨h1, _⟩
  · exact le_of_lt h
  · exact le_of_eq h1

theorem proj_filter_specPairs {ref : ℝ × ℝ} (m : List PostD) :
    ∀ (ps : List PostD) (i : ℕ),
      (∀ j, j < ps.length → m.getD (i + j) [] = mutPost ref (ps.getD j [])) →
      ((specPairs ref ps i).filter (pairKeep m)).map (fun dj => m.getD dj.2 []) =
        (ps.map (mutPost ref)).filter (postKeep ref) := by
  intro ps
  induction ps with
  | nil =>
    intro i _
    simp [specPairs]
  | cons p ps ih =>
    intro i hcomp
    have hm0 : m.getD i [] = mutPost ref p := by
      have := hcomp 0 (by simp)
      simpa using this
    have hkeep : pairKeep m (postKey ref p, i) = postKeep ref (mutPost ref p) := by
      unfold pairKeep postKeep
      dsimp only
      rw [hm0, postKey_mutPost]
    have hcomp' : ∀ j, j < ps.length →
        m.getD (i + 1 + j) [] = mutPost ref (ps.getD j []) := by
      intro j hj
      have := hcomp (j + 1) (by simpa using Nat.succ_lt_succ hj)
      rw [show i + (j + 1) = i + 1 + j by omega] at this
      simpa using this
    simp only [specPairs, List.map_cons, List.filter_cons, hkeep]
    cases hk : postKeep ref (mutPost ref p) with
    | true =>
      rw [if_pos rfl, if_pos rfl]
      simp only [List.map_cons]
      rw [hm0, ih (i + 1) hcomp']
    | false =>
      have hcond : ¬ (false = true) := by decide
      rw [if_neg hcond, if_neg hcond]
      exact ih (i + 1) hcomp'

/-- C1: whenever the ranker returns normally, the returned list equals
`rankedSpec`: the kept posts arranged by the unique `tupLe`-sorted order of
their `(distance, original index)` pairs — ascending by computed haversine
distance with ties broken by the post's original index (`tupLe` is
antisymmetric, so this equality pins the order down completely, ties
included).  In addition the returned list is sorted by the distance key and
consists exactly (as a multiset) of the processed input posts whose computed
distance is non-zero and whose `isOnline` value is truthy; offline or
zero-distance posts never appear. -/
theorem C1_ranker_sorted_and_filtered (ref : ℝ × ℝ) (posts st out : List PostD)
    (h : sort_posts_in_order_of_increasing_distance posts ref = (st, .ok out)) :
    st = posts.map (mutPost ref) ∧
      out = rankedSpec ref posts ∧
      List.Sorted (fun p q => postKey ref p ≤ postKey ref q) out ∧
      out.Perm (st.filter (postKeep ref)) := by
  unfold sort_posts_in_order_of_increasing_distance at h
  cases hloop : rankLoop ref posts 0 with
  | mk st0 res =>
    rw [hloop] at h
    cases res with
    | error e =>
      cases e <;> simp at h
    | ok prs =>
      dsimp only at h
      cases hsel : selectPosts st0 (sortPairs prs) with
      | error e =>
        rw [hsel] at h
        simp at h
      | ok out0 =>
        rw [hsel] at h
        simp only [Prod.mk.injEq, Except.ok.injEq] at h
        obtain ⟨hst, hout⟩ := h
        subst hst
        subst hout
        obtain ⟨hst0, hprs⟩ := rankLoop_ok hloop
        subst hst0
        subst hprs
        have hL := selectPosts_ok hsel
        have hinv : ∀ dj ∈ sortPairs (specPairs ref posts 0),
            dj.1 = postKey ref ((posts.map (mutPost ref)).getD dj.2 []) := by
          intro dj hdj
          have hdj' := (sortPairs_perm (specPairs ref posts 0)).mem_iff.mp hdj
          obtain ⟨h1, h2, h3⟩ := specPairs_mem hdj'
          rw [getD_map_lt (mutPost ref) [] [] posts dj.2 (by simpa using h2),
            postKey_mutPost]
          simpa using h3
        have hcomp : ∀ j, j < posts.length →
            (posts.map (mutPost ref)).getD (0 + j) [] =
              mutPost ref (posts.getD j []) := by
          intro j hj
          rw [Nat.zero_add]
          exact getD_map_lt (mutPost ref) [] [] posts j hj
        have heq := proj_filter_specPairs (posts.map (mutPost ref)) posts 0 hcomp
        refine ⟨rfl, ?_, ?_, ?_⟩
        · rw [hL]
          unfold rankedSpec
          dsimp only
          rw [sortPairs_filter_comm]
        · rw [hL]
          exact sorted_projected (sortPairs_sorted _) hinv
        · rw [hL]
          have hp2 := ((sortPairs_perm (specPairs ref posts 0)).filter
            (pairKeep (posts.map (mutPost ref)))).map
            (fun dj => (posts.map (mutPost ref)).getD dj.2 [])
          exact heq ▸ hp2

/-- Witness for C1 at the empty posts list and reference point (0, 0). -/
theorem C1_ranker_sorted_and_filtered_witness :
    ([] : List PostD) = ([] : List PostD).map (mutPost (0, 0)) ∧
      ([] : List PostD) = rankedSpec ((0:ℝ), (0:ℝ)) [] ∧
      List.Sorted (fun p q => postKey ((0:ℝ), (0:ℝ)) p ≤ postKey (0, 0) q)
        ([] : List PostD) ∧
      ([] : List PostD).Perm (([] : List PostD).filter (postKeep (0, 0))) :=
  C1_ranker_sorted_and_filtered (0, 0) [] [] [] rfl

theorem selectPosts_cons_zero {posts : List PostD} {rest : List (ℝ × ℕ)}
    {d : ℝ} {i : ℕ} (hd : d = 0) :
    selectPosts posts ((d, i) :: rest) = selectPosts posts rest := by
  simp only [selectPosts]
  rw [if_pos hd]

theorem selectPosts_cons_keep {posts : List PostD} {rest : List (ℝ × ℕ)}
    {d : ℝ} {i : ℕ} {v : RVal} {out : List PostD} (hd : d ≠ 0)
    (hlk : dlookup (posts.getD i []) "isOnline" = some v) (htr : truthy v)
    (hrest : selectPosts posts rest = .ok out) :
    selectPosts posts ((d, i) :: rest) = .ok (posts.getD i [] :: out) := by
  simp only [selectPosts]
  rw [if_neg hd, hlk]
  dsimp only
  rw [hrest]
  dsimp only
  rw [if_pos htr]

theorem demo_rank_eval :
    sort_posts_in_order_of_increasing_distance [demoPost1, demoPost2] (0, 0) =
      ([dset demoPost1 "distance" (.num (__haversine (0, 0) (10, 10))),
        dset demoPost2 "distance" (.num (__haversine (0, 0) (0, 0)))],
       .ok [dset demoPost1 "distance" (.num (__haversine (0, 0) (10, 10)))]) := by
  have hd1 : __haversine ((0:ℝ), (0:ℝ)) ((10:ℝ), (10:ℝ)) ≠ 0 :=
    ne_of_gt demo_hav_pos
  have hd2 : __haversine ((0:ℝ), (0:ℝ)) ((0:ℝ), (0:ℝ)) = 0 := __haversine_self _
  have hloop : rankLoop (0, 0) [demoPost1, demoPost2] 0 =
      ([dset demoPost1 "distance" (.num (__haversine (0, 0) (10, 10))),
        dset demoPost2 "distance" (.num (__haversine (0, 0) (0, 0)))],
       .ok [(__haversine (0, 0) (10, 10), 0),
         (__haversine (0, 0) (0, 0), 1)]) := rfl
  have hnotle : ¬ tupLe (__haversine (0, 0) (10, 10), 0)
      (__haversine (0, 0) (0, 0), 1) := by
    unfold tupLe
    dsimp only
    rintro (hlt | ⟨heq, -⟩)
    · rw [hd2] at hlt
      exact absurd hlt (not_lt.mpr (__haversine_nonneg _ _))
    · exact hd1 (heq.trans hd2)
  have hsort : sortPairs [(__haversine (0, 0) (10, 10), 0),
      (__haversine (0, 0) (0, 0), 1)] =
      [(__haversine (0, 0) (0, 0), 1), (__haversine (0, 0) (10, 10), 0)] := by
    unfold sortPairs
    simp only [List.insertionSort, List.orderedInsert]
    rw [if_neg hnotle]
  have hsel : selectPosts
      [dset demoPost1 "distance" (.num (__haversine (0, 0) (10, 10))),
        dset demoPost2 "distance" (.num (__haversine (0, 0) (0, 0)))]
      [(__haversine (0, 0) (0, 0), 1), (__haversine (0, 0) (10, 10), 0)] =
      .ok [dset demoPost1 "distance" (.num (__haversine (0, 0) (10, 10)))] := by
    rw [selectPosts_cons_zero hd2]
    exact (@selectPosts_cons_keep
      [dset demoPost1 "distance" (.num (__haversine (0, 0) (10, 10))),
        dset demoPost2 "distance" (.num (__haversine (0, 0) (0, 0)))]
      [] (__haversine (0, 0) (10, 10)) 0 (.bool true) []
      hd1 rfl rfl rfl).trans rfl
  unfold sort_posts_in_order_of_increasing_distance
  rw [hloop]
  dsimp only
  rw [hsort, hsel]

/-- C2 (counterexample): on the spec's two-post fixture with reference
(0, 0), the ranked id sequence is not [2, 1] — post id 2 lies at the
reference point, its computed distance is exactly 0, and the ranker's
truthiness filter drops it. -/
theorem C2_ranked_order_not_id2_id1 :
    ((sort_posts_in_order_of_increasing_distance
        [demoPost1, demoPost2] (0, 0)).2).map
        (fun l => l.map fun p => dlookup p "id") ≠
      .ok [some (RVal.num 2), some (RVal.num 1)] := by
  rw [demo_rank_eval]
  simp only [Except.map]
  intro h
  simp only [Except.ok.injEq] at h
  have := congrArg List.length h
  simp at this

/-- C2 (amended): on the fixture the ranker returns only post id 1 (with its
distance field added); the zero-distance post id 2 is excluded. -/
theorem C2_ranked_order_id1_only :
    (sort_posts_in_order_of_increasing_distance
        [demoPost1, demoPost2] (0, 0)).2 =
        .ok [dset demoPost1 "distance" (.num (__haversine (0, 0) (10, 10)))] ∧
      dlookup (dset demoPost1 "distance"
        (.num (__haversine (0, 0) (10, 10)))) "id" = some (.num 1) :=
  ⟨by rw [demo_rank_eval], rfl⟩

/-- C9 (amended): a call to the ranker mutates exactly a prefix of the
caller's posts list in place — each processed post, online or offline, kept
or filtered out, gets a `distance` key — and on success that prefix is the
whole list; when the call fails on some post, the posts before it stay
mutated and the rest stay untouched (in particular, a failure at the very
first post leaves the input unchanged). -/
theorem C9_mutation_prefix (ref : ℝ × ℝ) (posts : List PostD) :
    ∃ k, k ≤ posts.length ∧
      (sort_posts_in_order_of_increasing_distance posts ref).1 =
        (posts.take k).map (mutPost ref) ++ posts.drop k ∧
      (∀ p ∈ (posts.take k).map (mutPost ref),
        (dlookup p "distance").isSome = true) ∧
      ∀ out, (sort_posts_in_order_of_increasing_distance posts ref).2 = .ok out →
        k = posts.length := by
  obtain ⟨k, hk, hst, hok⟩ := rankLoop_state ref posts 0
  have hfst : (sort_posts_in_order_of_increasing_distance posts ref).1 =
      (rankLoop ref posts 0).1 := by
    unfold sort_posts_in_order_of_increasing_distance
    cases hl : rankLoop ref posts 0 with
    | mk st res =>
      cases res with
      | error e => cases e <;> rfl
      | ok prs =>
        dsimp only
        cases selectPosts st (sortPairs prs) <;> rfl
  refine ⟨k, hk, ?_, ?_, ?_⟩
  · rw [hfst, hst]
  · intro p hp
    simp only [List.mem_map] at hp
    obtain ⟨q, _, hq⟩ := hp
    rw [← hq]
    unfold mutPost
    rw [dlookup_dset_self]
    rfl
  · intro out hout
    have hex : ∃ prs, (rankLoop ref posts 0).2 = .ok prs := by
      unfold sort_posts_in_order_of_increasing_distance at hout
      cases hl : rankLoop ref posts 0 with
      | mk st res =>
        rw [hl] at hout
        cases res with
        | error e => cases e <;> simp at hout
        | ok prs => exact ⟨prs, rfl⟩
    obtain ⟨prs, hprs⟩ := hex
    exact hok prs hprs

/-- C9 (counterexample to "the input is never left unchanged on error"):
a post without a `latitude` key fails at the very first loop iteration,
before any mutation, so the call errors with the input list unchanged. -/
theorem C9_error_at_first_post_leaves_input_unchanged :
    sort_posts_in_order_of_increasing_distance [[]] (0, 0) =
      ([[]], .error (.sortPostsError [[]])) := rfl

/-- Witness for the amended C9 at the empty posts list. -/
theorem C9_mutation_prefix_witness :
    ∃ k, k ≤ ([] : List PostD).length ∧
      (sort_posts_in_order_of_increasing_distance [] ((0:ℝ), (0:ℝ))).1 =
        (([] : List PostD).take k).map (mutPost (0, 0)) ++
          ([] : List PostD).drop k ∧
      (∀ p ∈ (([] : List PostD).take k).map (mutPost (0, 0)),
        (dlookup p "distance").isSome = true) ∧
      ∀ out, (sort_posts_in_order_of_increasing_distance []
          ((0:ℝ), (0:ℝ))).2 = .ok out → k = ([] : List PostD).length :=
  C9_mutation_prefix (0, 0) []

end LightAirQ
